import Mathlib

/-!
Verification development for the labfluence_sync core: the scheme-driven
directory matcher (dirtreeparsing.py), the bidirectional subentry-folder
catalog and its rename operations (satellite_location.py), the one-way file
sync primitive (SatelliteFileLocation.syncFileToLocalDir) and the sync
dispatcher (syncmanager.SyncManager.sync_remote).

Modelling conventions (shallow embedding of the Python source):
* Filesystem paths handled by the catalog code are modelled as lists of
  path components (`FPath := List String`); the source normalises its inputs
  with `os.path.normpath`, and on already-normal relative paths `normpath`
  is the identity, so component lists represent post-normpath paths and
  `os.path.dirname` / `os.path.basename` / `os.path.join` become
  `List.dropLast` / last component / append.
* The string-level path helpers of `os.path` used by `syncFileToLocalDir`
  (`basename`, `join`) are modelled directly on strings.
* Python dicts are modelled as insertion-ordered association lists with
  unique keys; `d[k] = v` replaces in place or appends (`alInsert`),
  `d.pop(k)` removes the entry (`alErase`), `d.setdefault(k, []).append(x)`
  is `alAppendAt`.  Python sets are duplicate-free lists (`sAdd`,
  `sDiscard`).
* A compiled regular expression is modelled extensionally by the function
  it induces under `re.match` from a basename to an optional groupdict
  (`PyRegex := String → Option GroupDict`); the only observations the
  modelled code makes of a match object are its truthiness and its
  `groupdict()`.
* Python exceptions are the `PyErr` inductive; a function that can raise
  returns `Except PyErr _` or records the raised error in its result.
* Generator semantics: per PEP 289 the outermost iterable of a generator
  expression is evaluated eagerly when the expression is created, while
  everything else runs on consumption.  The model therefore splits
  `genPathmatchTupsByPathscheme` into an eager construction step
  (`genitemsConstruct`, which records the filesystem operations it issues)
  and a lazy iteration step (`walkLevel` / `iterateGen`, which returns the
  items yielded before any abort together with the aborting exception).
* `os.path.getmtime` returns a float; modification times are modelled as
  rationals and Python's builtin `round` (round-half-to-even to an
  integer) as `pyround`.
-/

/-- A filesystem path as a list of components (post-`normpath`). -/
abbrev FPath := List String

/-- The groupdict of a regex match: named capture group values in order. -/
abbrev GroupDict := List (String × String)

/-- A compiled regex, observed extensionally through `re.match` on a
directory basename: `none` models a failed match, `some gd` a match object
with groupdict `gd`. -/
abbrev PyRegex := String → Option GroupDict

/-- The Python exceptions raised by the modelled code. -/
inductive PyErr where
  | keyError (k : String)
  | osError (msg : String)
  | valueError (msg : String)
  | indexError
  deriving Repr, DecidableEq

/-- First-match lookup in an association list (Python `d[k]` / `k in d`). -/
def alLookup {κ ν : Type} [DecidableEq κ] : List (κ × ν) → κ → Option ν
  | [], _ => none
  | (k', v') :: rest, k => if k' = k then some v' else alLookup rest k

/-- Python `d[k] = v`: replace the value in place if the key is present
(keeping its position), otherwise append at the end. -/
def alInsert {κ ν : Type} [DecidableEq κ] : List (κ × ν) → κ → ν → List (κ × ν)
  | [], k, v => [(k, v)]
  | (k', v') :: rest, k, v =>
    if k' = k then (k, v) :: rest else (k', v') :: alInsert rest k v

/-- Python `d.pop(k)` (key removal part): remove the first entry with the
given key. -/
def alErase {κ ν : Type} [DecidableEq κ] : List (κ × ν) → κ → List (κ × ν)
  | [], _ => []
  | (k', v') :: rest, k => if k' = k then rest else (k', v') :: alErase rest k

/-- Python `d.setdefault(k, []).append(x)`: append to the list at `k`,
creating the entry at the end if absent. -/
def alAppendAt {κ ν : Type} [DecidableEq κ] : List (κ × List ν) → κ → ν → List (κ × List ν)
  | [], k, v => [(k, [v])]
  | (k', l) :: rest, k, v =>
    if k' = k then (k', l ++ [v]) :: rest else (k', l) :: alAppendAt rest k v

/-- Python `dict(base, **upd)`: copy `base`, then assign every entry of
`upd` in order. -/
def alInsertMany {κ ν : Type} [DecidableEq κ] (base upd : List (κ × ν)) : List (κ × ν) :=
  upd.foldl (fun acc kv => alInsert acc kv.1 kv.2) base

/-- Python `set.add`. -/
def sAdd {α : Type} [DecidableEq α] (s : List α) (x : α) : List α :=
  if x ∈ s then s else s ++ [x]

/-- Python `set.discard`. -/
def sDiscard {α : Type} [DecidableEq α] (s : List α) (x : α) : List α :=
  s.filter (fun y => y ≠ x)

theorem alLookup_alInsert_self {κ ν : Type} [DecidableEq κ] (d : List (κ × ν)) (k : κ) (v : ν) :
    alLookup (alInsert d k v) k = some v := by
  induction d with
  | nil => simp [alInsert, alLookup]
  | cons hd rest ih =>
    obtain ⟨a, b⟩ := hd
    by_cases hh : a = k
    · subst hh
      simp [alInsert, alLookup]
    · simp only [alInsert, if_neg hh, alLookup, if_neg hh]
      exact ih

theorem alLookup_alInsert_ne {κ ν : Type} [DecidableEq κ] (d : List (κ × ν)) (k k' : κ) (v : ν)
    (h : k' ≠ k) : alLookup (alInsert d k v) k' = alLookup d k' := by
  induction d with
  | nil =>
    simp only [alInsert, alLookup]
    rw [if_neg (Ne.symm h)]
  | cons hd rest ih =>
    obtain ⟨a, b⟩ := hd
    by_cases hh : a = k
    · subst hh
      simp only [alInsert, if_pos rfl, alLookup]
      rw [if_neg (Ne.symm h), if_neg (Ne.symm h)]
    · simp only [alInsert, if_neg hh, alLookup, ih]

theorem mem_keys_of_alLookup {κ ν : Type} [DecidableEq κ] {d : List (κ × ν)} {k : κ} {v : ν}
    (h : alLookup d k = some v) : k ∈ d.map Prod.fst := by
  induction d with
  | nil => simp [alLookup] at h
  | cons hd rest ih =>
    by_cases hh : hd.1 = k
    · simp [hh.symm]
    · simp only [alLookup, if_neg hh] at h
      simp [ih h]

theorem alLookup_alErase_self {κ ν : Type} [DecidableEq κ] (d : List (κ × ν)) (k : κ)
    (hnd : (d.map Prod.fst).Nodup) : alLookup (alErase d k) k = none := by
  induction d with
  | nil => simp [alErase, alLookup]
  | cons hd rest ih =>
    simp only [List.map_cons, List.nodup_cons] at hnd
    by_cases hh : hd.1 = k
    · subst hh
      simp only [alErase, if_pos rfl]
      cases hres : alLookup rest hd.1 with
      | none => exact hres
      | some v => exact absurd (mem_keys_of_alLookup hres) hnd.1
    · simp only [alErase, if_neg hh, alLookup, if_neg hh]
      exact ih hnd.2

theorem alLookup_alErase_ne {κ ν : Type} [DecidableEq κ] (d : List (κ × ν)) (k k' : κ)
    (h : k' ≠ k) : alLookup (alErase d k) k' = alLookup d k' := by
  induction d with
  | nil => simp [alErase, alLookup]
  | cons hd rest ih =>
    obtain ⟨a, b⟩ := hd
    by_cases hh : a = k
    · subst hh
      simp [alErase, alLookup, Ne.symm h]
    · simp only [alErase, if_neg hh, alLookup, ih]

theorem alErase_length_of_mem {κ ν : Type} [DecidableEq κ] (d : List (κ × ν)) (k : κ)
    (h : (alLookup d k).isSome) : (alErase d k).length + 1 = d.length := by
  induction d with
  | nil => simp [alLookup] at h
  | cons hd rest ih =>
    by_cases hh : hd.1 = k
    · simp [alErase, hh]
    · simp only [alLookup, if_neg hh] at h
      simp [alErase, hh, ih h]

theorem alInsert_length_of_not_mem {κ ν : Type} [DecidableEq κ] (d : List (κ × ν)) (k : κ) (v : ν)
    (h : alLookup d k = none) : (alInsert d k v).length = d.length + 1 := by
  induction d with
  | nil => simp [alInsert]
  | cons hd rest ih =>
    by_cases hh : hd.1 = k
    · simp [alLookup, hh] at h
    · simp only [alLookup, if_neg hh] at h
      simp [alInsert, hh, ih h]

theorem alInsert_length_of_mem {κ ν : Type} [DecidableEq κ] (d : List (κ × ν)) (k : κ) (v : ν)
    (h : (alLookup d k).isSome) : (alInsert d k v).length = d.length := by
  induction d with
  | nil => simp [alLookup] at h
  | cons hd rest ih =>
    by_cases hh : hd.1 = k
    · simp [alInsert, hh]
    · simp only [alLookup, if_neg hh] at h
      simp [alInsert, hh, ih h]

/-- A filesystem operation issued by the matcher. -/
inductive FSOp where
  | listdirOp (p : FPath)
  | isdirOp (p : FPath)
  deriving Repr, DecidableEq

/-- The filesystem capability surface consumed by the matcher
(`fs.listdir` and `fs.path.isdir` in the source).  `listdir` can raise
`OSError` (modelled by `Except.error msg`), `os.path.isdir` never raises
(it returns `False` on errors such as broken symlinks). -/
structure TreeFS where
  listdir : FPath → Except String (List String)
  isdir : FPath → Bool

/-- The state captured by the generator expressions that
`dirtreeparsing.genPathmatchTupsByPathscheme.genitems` builds eagerly
(source lines 142-203): the current scheme level, the remaining levels,
the compiled pattern for this level, the folder being expanded, the
directory listing obtained at construction, and the accumulated parent
match. -/
structure GenItems (α : Type) where
  schemekey : String
  remaining : List String
  regexpat : PyRegex
  basefolder : FPath
  listing : List String
  basematch : α

/-- Outcome of the eager part of one `genitems(...)` call: the filesystem
operations it issued and either the generator state or the exception it
raised.  Per PEP 289, `fs.listdir(basefolder)` — the outermost iterable of
the `foldernames` generator expression — is evaluated at construction
time; `regexs[schemekey]` is evaluated even earlier (before the listdir),
and `schemekeys[0]` before that. -/
structure Constructed (α : Type) where
  ops : List FSOp
  result : Except PyErr (GenItems α)

def genitemsConstruct {α : Type} (fs : TreeFS) (regexs : List (String × PyRegex))
    (schemekeys : List String) (basefolder : FPath) (basematch : α) : Constructed α :=
  match schemekeys with
  | [] => ⟨[], .error .indexError⟩
  | k :: rest =>
    match alLookup regexs k with
    | none => ⟨[], .error (.keyError k)⟩
    | some pat =>
      match fs.listdir basefolder with
      | .error msg => ⟨[.listdirOp basefolder], .error (.osError msg)⟩
      | .ok names => ⟨[.listdirOp basefolder], .ok ⟨k, rest, pat, basefolder, names, basematch⟩⟩

/-- What consuming the generator produces: the `(path, match)` tuples
yielded before the iteration finished or aborted, and the exception that
aborted it, if any. -/
structure IterOut (α : Type) where
  results : List (FPath × α)
  err : Option PyErr
  deriving Repr, DecidableEq

/-- Consumption of a terminal-level generator (the `foldertups` generator
expression, `genitems` lines 164-171 with no remaining scheme keys): for
each listed `name`, the eligibility test `fs.path.isdir(basefolder) and
filterfun(join(basefolder, name))` (note the source tests `isdir` on the
*parent*, line 165), then the anchored pattern match; matching entries are
yielded in listing order. -/
def walkTerminal {α : Type} (fs : TreeFS) (filterfun : FPath → Bool)
    (comb : α → String → GroupDict → α) (schemekey : String) (pat : PyRegex)
    (basefolder : FPath) : List String → α → IterOut α
  | [], _ => ⟨[], none⟩
  | name :: moreNames, basematch =>
    if fs.isdir basefolder && filterfun (basefolder ++ [name]) then
      match pat name with
      | none => walkTerminal fs filterfun comb schemekey pat basefolder moreNames basematch
      | some m =>
        let rest := walkTerminal fs filterfun comb schemekey pat basefolder moreNames basematch
        ⟨(basefolder ++ [name], comb basematch schemekey m) :: rest.results, rest.err⟩
    else
      walkTerminal fs filterfun comb schemekey pat basefolder moreNames basematch

/-- Consumption of a non-terminal-level generator (the `matchitems`
generator expression, `genitems` lines 194-198): each matching eligible
entry is expanded through `deeper` (the recursive `genitems` call on the
child, made lazily when the iterator reaches that entry); an exception
from the expansion propagates immediately, after the tuples already
yielded. -/
def walkRecurse {α : Type} (fs : TreeFS) (filterfun : FPath → Bool)
    (comb : α → String → GroupDict → α) (deeper : FPath → α → IterOut α)
    (schemekey : String) (pat : PyRegex) (basefolder : FPath) :
    List String → α → IterOut α
  | [], _ => ⟨[], none⟩
  | name :: moreNames, basematch =>
    if fs.isdir basefolder && filterfun (basefolder ++ [name]) then
      match pat name with
      | none => walkRecurse fs filterfun comb deeper schemekey pat basefolder moreNames basematch
      | some m =>
        let sub := deeper (basefolder ++ [name]) (comb basematch schemekey m)
        match sub.err with
        | some e => ⟨sub.results, some e⟩
        | none =>
          let rest := walkRecurse fs filterfun comb deeper schemekey pat basefolder moreNames basematch
          ⟨sub.results ++ rest.results, rest.err⟩
    else
      walkRecurse fs filterfun comb deeper schemekey pat basefolder moreNames basematch

/-- Lazy traversal of one scheme level down to the terminal level: at a
non-terminal level the sub-generator for a matched child is constructed
mid-iteration -- which is when `regexs[nextkey]` and `fs.listdir(child)`
run, so a missing deeper pattern or an unreadable child directory raises
here, with no enclosing try/except (`genitems` has none). -/
def walkLevel {α : Type} (fs : TreeFS) (regexs : List (String × PyRegex))
    (filterfun : FPath → Bool) (comb : α → String → GroupDict → α) :
    List String → String → PyRegex → FPath → List String → α → IterOut α
  | [], schemekey, pat, basefolder, names, basematch =>
    walkTerminal fs filterfun comb schemekey pat basefolder names basematch
  | k2 :: rest2, schemekey, pat, basefolder, names, basematch =>
    walkRecurse fs filterfun comb
      (fun child acc =>
        match alLookup regexs k2 with
        | none => ⟨[], some (.keyError k2)⟩
        | some pat2 =>
          match fs.listdir child with
          | .error msg => ⟨[], some (.osError msg)⟩
          | .ok subnames =>
            walkLevel fs regexs filterfun comb rest2 k2 pat2 child subnames acc)
      schemekey pat basefolder names basematch

/-- Consume a constructed generator to the end (or to its aborting
exception). -/
def iterateGen {α : Type} (fs : TreeFS) (regexs : List (String × PyRegex))
    (filterfun : FPath → Bool) (comb : α → String → GroupDict → α) (g : GenItems α) : IterOut α :=
  walkLevel fs regexs filterfun comb g.remaining g.schemekey g.regexpat g.basefolder g.listing g.basematch

/-- Helper for `splitOnSlash`: walk the character list, cutting at each
separator. -/
def splitOnSlashAux : List Char → List Char → List String
  | [], acc => [String.mk acc.reverse]
  | c :: rest, acc =>
    if c = '/' then String.mk acc.reverse :: splitOnSlashAux rest []
    else splitOnSlashAux rest (c :: acc)

/-- Python `s.split('/')` (and `os.path` component splitting): split on
every slash, keeping empty segments. -/
def splitOnSlash (s : String) : List String :=
  splitOnSlashAux s.toList []

/-- Python `'/'.join(parts)`. -/
def joinWithSlash : List String → String
  | [] => ""
  | [x] => x
  | x :: rest => x ++ "/" ++ joinWithSlash rest

/-- Model of `dirtreeparsing.getFolderschemeUpTo` (lines 33-42): truncate a
folderscheme string at `rightmost` (inclusive); `list.index` raises
`ValueError` when `rightmost` is not a scheme key. -/
def getFolderschemeUpTo (folderscheme rightmost : String) : Except PyErr String :=
  let schemekeys := (splitOnSlash folderscheme).filter (fun e => e ≠ "")
  match schemekeys.findIdx? (fun e => e = rightmost) with
  | none => .error (.valueError "substring not found")
  | some i => .ok (joinWithSlash (schemekeys.take (i + 1)))

/-- The scheme-key split performed by `genPathmatchTupsByPathscheme`
(line 123): split on `/`, dropping empty segments and `.`. -/
def schemeKeys (folderscheme : String) : List String :=
  (splitOnSlash folderscheme).filter (fun k => k ≠ "" && k ≠ ".")

/-- Model of `dirtreeparsing.genPathmatchTupsByPathscheme` (lines 46-207), eager
part: apply the `rightmost` truncation, split the scheme, then run the
outer `genitems(schemekeys, basepath, matchinit)` call, whose body
executes immediately (it is an ordinary function returning generator
expressions). -/
def genPathmatchTupsByPathscheme {α : Type} (fs : TreeFS) (regexs : List (String × PyRegex))
    (_filterfun : FPath → Bool) (matchinit : α) (basepath : FPath)
    (folderscheme : String) (rightmost : Option String) : Constructed α :=
  match (match rightmost with
         | some r => getFolderschemeUpTo folderscheme r
         | none => .ok folderscheme) with
  | .error e => ⟨[], .error e⟩
  | .ok scheme2 => genitemsConstruct fs regexs (schemeKeys scheme2) basepath matchinit

/-- Construct the matcher and consume it to the end: the view a caller
such as `getFoldersWithSameProperty` has of one full
`genPathmatchTupsByPathscheme` run (a construction-time exception
propagates before anything is yielded). -/
def runPathmatch {α : Type} (fs : TreeFS) (regexs : List (String × PyRegex))
    (filterfun : FPath → Bool) (comb : α → String → GroupDict → α) (matchinit : α)
    (basepath : FPath) (folderscheme : String) (rightmost : Option String) :
    Except PyErr (IterOut α) :=
  match genPathmatchTupsByPathscheme fs regexs filterfun matchinit basepath folderscheme rightmost with
  | ⟨_, .error e⟩ => .error e
  | ⟨_, .ok g⟩ => .ok (iterateGen fs regexs filterfun comb g)

/-- The merged-groupdict match combiner of
`dirtreeparsing.genPathGroupdictTupByPathscheme` (lines 228-230):
`dict(basematch, **match.groupdict())`; deeper levels overwrite same-named
keys.  The scheme key is ignored, as in the source. -/
def groupdictCombiner (basematch : GroupDict) (_schemekey : String) (m : GroupDict) : GroupDict :=
  alInsertMany basematch m

/-- Model of `dirtreeparsing.genPathGroupdictTupByPathscheme` (lines 211-233):
the matcher with the merged-groupdict combiner and `matchinit={}`. -/
def genPathGroupdictTupByPathscheme (fs : TreeFS) (regexs : List (String × PyRegex))
    (filterfun : FPath → Bool) (basepath : FPath) (folderscheme : String)
    (rightmost : Option String) : Constructed GroupDict :=
  genPathmatchTupsByPathscheme fs regexs filterfun ([] : GroupDict) basepath folderscheme rightmost

/-- The `group` argument of `getFoldersWithSameProperty`: a single capture
group name or a tuple/list of names (line 261 dispatches on
`isinstance(group, (tuple, list))`). -/
inductive PyGroup where
  | scalar (s : String)
  | tup (gs : List String)
  deriving Repr, DecidableEq

/-- A key of the dict returned by `getFoldersWithSameProperty`: for a
scalar `group` the key is the group value itself (a string); for a
tuple/list `group` it is a tuple of values. -/
inductive PyKey where
  | str (s : String)
  | tup (vs : List String)
  deriving Repr, DecidableEq

/-- The `groupgetter` closures of `getFoldersWithSameProperty` (lines
261-268): `match[group]` raises `KeyError` when the merged groupdict lacks
the requested name. -/
def pyGroupGetter (group : PyGroup) (md : GroupDict) : Except PyErr PyKey :=
  match group with
  | .scalar s =>
    match alLookup md s with
    | some v => .ok (.str v)
    | none => .error (.keyError s)
  | .tup gs =>
    (gs.mapM (fun g =>
      (match alLookup md g with
       | some v => Except.ok v
       | none => Except.error (PyErr.keyError g) : Except PyErr String))).map .tup

/-- The accumulation loop of `getFoldersWithSameProperty` (lines 269-270):
`listfoldersbyexp.setdefault(groupgetter(matchdict), []).append(folderpath)`
over the yielded tuples, in yield order. -/
def groupFold (group : PyGroup) :
    List (PyKey × List FPath) → List (FPath × GroupDict) → Except PyErr (List (PyKey × List FPath))
  | acc, [] => .ok acc
  | acc, (p, md) :: rest =>
    match pyGroupGetter group md with
    | .error e => .error e
    | .ok k => groupFold group (alAppendAt acc k p) rest

/-- Model of `dirtreeparsing.getFoldersWithSameProperty` (lines 252-274): run the
merged-groupdict matcher, group the yielded paths by the requested capture
group(s), then -- when `countlim` is truthy -- keep only groups with at
least `countlim` paths.  Exceptions raised while the generator is
consumed (or by `groupgetter`) propagate out of the function. -/
def getFoldersWithSameProperty (fs : TreeFS) (regexs : List (String × PyRegex))
    (filterfun : FPath → Bool) (group : PyGroup) (basepath : FPath) (folderscheme : String)
    (rightmost : Option String) (countlim : Nat) : Except PyErr (List (PyKey × List FPath)) :=
  match genPathGroupdictTupByPathscheme fs regexs filterfun basepath folderscheme rightmost with
  | ⟨_, .error e⟩ => .error e
  | ⟨_, .ok g⟩ =>
    let it := iterateGen fs regexs filterfun groupdictCombiner g
    match groupFold group [] it.results with
    | .error e => .error e
    | .ok grouped =>
      match it.err with
      | some e => .error e
      | none =>
        .ok (if countlim ≠ 0 then grouped.filter (fun kv => countlim ≤ kv.2.length) else grouped)

/-- Model of `SatelliteLocation.getDuplicateExps` (satellite_location.py lines
596-606): `getFoldersWithSameProperty(group='expid',
rightmost='experiment', countlim=2)` over the location's configured
folderscheme, regexs and base path. -/
def getDuplicateExps (fs : TreeFS) (regexs : List (String × PyRegex)) (filterfun : FPath → Bool)
    (basepath : FPath) (folderscheme : String) : Except PyErr (List (PyKey × List FPath)) :=
  getFoldersWithSameProperty fs regexs filterfun (.scalar "expid") basepath folderscheme
    (some "experiment") 2

/-- Model of `os.path.dirname` on a component path. -/
def pdirname (p : FPath) : FPath := p.dropLast

/-- Model of `os.path.basename` on a component path (empty string for the empty
path). -/
def pbasename (p : FPath) : String := p.getLast?.getD ""

/-- Model of `os.path.join(parent, name)` for a bare (relative, single-component)
name. -/
def pjoin (d : FPath) (b : String) : FPath := d ++ [b]

/-- POSIX resolution of a pathname against the current working directory:
a relative path (such as a bare basename) is interpreted under `cwd`. -/
def resolveRel (cwd p : FPath) : FPath := cwd ++ p

/-- The catalog state of a `SatelliteLocation`: the nested forward index
`SubentryfoldersByExpidSubidx` (`[expid][subidx] = folderpath`), the
reverse index `ExpidSubidxByFolder` (`[folderpath] = (expid, subidx)`),
and the path-membership set `_subentryfolderset` (`none` models the unset
`None` state). -/
structure Catalog where
  subByExpidSubidx : List (String × List (String × FPath))
  expidSubidxByFolder : List (FPath × (String × String))
  subentryfolderset : Option (List FPath)
  deriving Repr, DecidableEq

/-- How a `renamesubentryfolder` call ended: an exception propagated, the
`return` with no value (`None`) at line 703, or the normal return of the
new folder path. -/
inductive RenameRes where
  | raised (e : PyErr)
  | retNone
  | renamed (newpath : FPath)
  deriving Repr, DecidableEq

/-- The observable outcome of `renamesubentryfolder`: the result, the
catalog state after the call, and the arguments handed to the filesystem
rename primitive `self.rename` if it was invoked. -/
structure RenameOut where
  res : RenameRes
  cat : Catalog
  renameCallArgs : Option (FPath × FPath)
  deriving Repr, DecidableEq

/-- Model of `SatelliteLocation.renamesubentryfolder` (satellite_location.py lines
682-728).  `renameRaises` models whether the underlying
`self.rename(folderpath, newbasename)` (which is `os.rename` for a
`SatelliteFileLocation`, lines 871-873) raises `OSError`.  Steps mirrored
from the source: normpath both arguments (identity on component paths);
raise `OSError` when `newbasename` carries a parent dirname different from
`folderpath`'s (line 688); rebind `newbasename` to its basename (line
693); return `None` when `folderpath` is not in the reverse index (line
700); call `self.rename(folderpath, newbasename)` and convert an `OSError`
into a raised `ValueError` (lines 705-710); then pop the old reverse-index
entry, insert the new one (lines 720-721), assign
`SubentryfoldersByExpidSubidx[expid][subidx]` — which raises `KeyError`
when `expid` is absent, after the reverse index was already mutated (line
723) — and update the folder set when it is truthy (lines 724-726). -/
def renamesubentryfolder (renameRaises : Bool) (cat : Catalog)
    (folderpath newbasename : FPath) : RenameOut :=
  if pdirname newbasename ≠ [] ∧ pdirname folderpath ≠ pdirname newbasename then
    ⟨.raised (.osError "parent dirname does not match"), cat, none⟩
  else
    let newbase := pbasename newbasename
    match alLookup cat.expidSubidxByFolder folderpath with
    | none => ⟨.retNone, cat, none⟩
    | some (expid, subidx) =>
      if renameRaises then
        ⟨.raised (.valueError "Error while trying to rename"), cat, some (folderpath, [newbase])⟩
      else
        let newfolderpath := pjoin (pdirname folderpath) newbase
        let byFolder := alInsert (alErase cat.expidSubidxByFolder folderpath) newfolderpath (expid, subidx)
        match alLookup cat.subByExpidSubidx expid with
        | none =>
          ⟨.raised (.keyError expid),
           { cat with expidSubidxByFolder := byFolder }, some (folderpath, [newbase])⟩
        | some inner =>
          let subByES := alInsert cat.subByExpidSubidx expid (alInsert inner subidx newfolderpath)
          let sset :=
            match cat.subentryfolderset with
            | some l => if l ≠ [] then some (sAdd (sDiscard l folderpath) newfolderpath) else some l
            | none => none
          ⟨.renamed newfolderpath, ⟨subByES, byFolder, sset⟩, some (folderpath, [newbase])⟩

/-- How an `ensuresubentryfoldername` call ended: `None` (identity absent
or name already correct), `True` (no exception from the rename call),
`False` (an `OSError` was caught), or a propagated exception. -/
inductive EnsureRes where
  | retNone
  | retTrue
  | retFalse
  | raised (e : PyErr)
  deriving Repr, DecidableEq

/-- Model of `SatelliteLocation.ensuresubentryfoldername` (satellite_location.py
lines 731-761): take the basename of the desired name; return `None` when
the expid or subidx is absent or the current basename already matches;
otherwise call `renamesubentryfolder` catching only `OSError` (line 757)
— an `OSError` yields `False`, any other exception (notably the
`ValueError` that `renamesubentryfolder` raises when the filesystem
rename fails) propagates, and every non-raising call yields `True`. -/
def ensuresubentryfoldername (renameRaises : Bool) (cat : Catalog)
    (expid subidx : String) (subentryfoldername : FPath) : EnsureRes × Catalog :=
  let name := pbasename subentryfoldername
  match alLookup cat.subByExpidSubidx expid with
  | none => (.retNone, cat)
  | some inner =>
    match alLookup inner subidx with
    | none => (.retNone, cat)
    | some currentfolderpath =>
      if pbasename currentfolderpath = name then (.retNone, cat)
      else
        let out := renamesubentryfolder renameRaises cat currentfolderpath [name]
        match out.res with
        | .raised (.osError _) => (.retFalse, out.cat)
        | .raised e => (.raised e, out.cat)
        | _ => (.retTrue, out.cat)

/-- Model of `os.path.basename` on a string path (the part after the last slash). -/
def osBasename (s : String) : String := ((splitOnSlash s).getLast?).getD ""

/-- Model of `os.path.join(a, b)` on string paths (POSIX): an absolute `b`
discards `a`. -/
def ospJoin (a b : String) : String :=
  if b.toList.head? = some '/' then b
  else if a = "" then b
  else if a.toList.getLast? = some '/' then a ++ b
  else a ++ "/" ++ b

/-- Python's builtin `round` to an integer: round half to even. -/
def pyround (q : ℚ) : ℤ :=
  if q - ⌊q⌋ < 1 / 2 then ⌊q⌋
  else if 1 / 2 < q - ⌊q⌋ then ⌊q⌋ + 1
  else if ⌊q⌋ % 2 = 0 then ⌊q⌋ else ⌊q⌋ + 1

/-- The filesystem and configuration surface consumed by
`SatelliteFileLocation.syncFileToLocalDir`: the `os.path` predicates, the
file modification times (floats, modelled as rationals), the location's
`getRealPath` resolution (URI/rootdir join), and the configured
`file_exclude_patterns` (each `fnmatch` pattern modelled extensionally as
the predicate it induces on filenames). -/
structure SyncEnv where
  isdir : String → Bool
  isfile : String → Bool
  pexists : String → Bool
  getmtime : String → ℚ
  getRealPath : String → String
  excludePatterns : List (String → Bool)

/-- The action `syncFileToLocalDir` decides on (and its per-item report
symbol): the branches of satellite_location.py lines 909-972 in source
order. -/
inductive SyncFileAction where
  | retFalseNotDir
  | retFalseSrcNotFile
  | retNoneExcluded
  | copyNew
  | retFalseDestIsDir
  | retFalseDestNotFile
  | overwrite
  | skipCurrent
  deriving Repr, DecidableEq

/-- Model of `SatelliteFileLocation.syncFileToLocalDir` (satellite_location.py
lines 909-972): destination directory check; source regular-file check;
exclude-pattern check; copy when no destination entry exists (`N`); skip
when the destination is a directory or otherwise not a regular file
(`S!`); otherwise overwrite (`O`) iff
`round(getmtime(src)) > round(getmtime(dest)) + 10` (line 957), else skip
(`S`). -/
def syncFileToLocalDir (env : SyncEnv) (satellitepath localpath : String) : SyncFileAction :=
  if ¬ env.isdir localpath then .retFalseNotDir
  else
    let srcfilepath := env.getRealPath satellitepath
    if ¬ env.isfile srcfilepath then .retFalseSrcNotFile
    else
      let filename := osBasename srcfilepath
      if env.excludePatterns.any (fun pat => pat filename) then .retNoneExcluded
      else
        let destfilepath := ospJoin localpath filename
        if ¬ env.pexists destfilepath then .copyNew
        else if env.isdir destfilepath then .retFalseDestIsDir
        else if ¬ env.isfile destfilepath then .retFalseDestNotFile
        else if pyround (env.getmtime destfilepath) + 10 < pyround (env.getmtime srcfilepath) then .overwrite
        else .skipCurrent

/-- The reconciliation granularity `SyncManager.sync_remote` dispatches
to, or the `NotImplementedError` it raises. -/
inductive SyncMethod where
  | bySubentries
  | byExperimentfolders
  | raisedNotImplemented
  deriving Repr, DecidableEq

/-- Model of `SyncManager.sync_remote` (syncmanager.py lines 84-102): split the
remote location's folderscheme on `/` dropping empty segments and `.`;
dispatch to `sync_subentries` when `subentry` is a scheme key, else to
`sync_experimentfolders` when `experiment` is, else raise
`NotImplementedError`.  The decision is a pure function of the scheme
string: no filesystem call is made before the dispatch (the sync
functions themselves perform all traversal and copying). -/
def sync_remote_dispatch (folderscheme : String) : SyncMethod :=
  let schemekeys := (splitOnSlash folderscheme).filter (fun k => k ≠ "" && k ≠ ".")
  if "subentry" ∈ schemekeys then .bySubentries
  else if "experiment" ∈ schemekeys then .byExperimentfolders
  else .raisedNotImplemented

/-- A demonstration catalog holding the single subentry folder
`2014/RS123 Exp/RS123a Old` for identity `(RS123, a)`, with consistent
forward and reverse indices and a built folder set. -/
def demoCat : Catalog :=
  { subByExpidSubidx := [("RS123", [("a", ["2014", "RS123 Exp", "RS123a Old"])])],
    expidSubidxByFolder := [(["2014", "RS123 Exp", "RS123a Old"], ("RS123", "a"))],
    subentryfolderset := some [["2014", "RS123 Exp", "RS123a Old"]] }

/-- C7: `sync_remote` dispatches on the remote's folderscheme keys: a
scheme containing `subentry` reconciles per subentry; otherwise one
containing `experiment` reconciles per whole experiment folder; otherwise
`NotImplementedError` is raised (a pure decision on the scheme string,
before any filesystem traversal or copying), with no default granularity.
-/
theorem sync_remote_dispatch_granularity (folderscheme : String) :
    ("subentry" ∈ schemeKeys folderscheme →
      sync_remote_dispatch folderscheme = .bySubentries) ∧
    ("subentry" ∉ schemeKeys folderscheme → "experiment" ∈ schemeKeys folderscheme →
      sync_remote_dispatch folderscheme = .byExperimentfolders) ∧
    ("subentry" ∉ schemeKeys folderscheme → "experiment" ∉ schemeKeys folderscheme →
      sync_remote_dispatch folderscheme = .raisedNotImplemented) := by
  unfold sync_remote_dispatch schemeKeys
  refine ⟨fun h1 => ?_, fun h1 h2 => ?_, fun h1 h2 => ?_⟩ <;> simp_all

/-- Witness for C7: the three dispatch outcomes at concrete schemes. -/
theorem sync_remote_dispatch_granularity_witness :
    sync_remote_dispatch "./year/experiment/subentry" = .bySubentries ∧
    sync_remote_dispatch "./year/experiment" = .byExperimentfolders ∧
    sync_remote_dispatch "./year" = .raisedNotImplemented :=
  ⟨(sync_remote_dispatch_granularity "./year/experiment/subentry").1 (by decide),
   (sync_remote_dispatch_granularity "./year/experiment").2.1 (by decide) (by decide),
   (sync_remote_dispatch_granularity "./year").2.2 (by decide) (by decide)⟩

/-- C9: when the identity is present, the current basename differs and the
underlying filesystem rename fails, `ensuresubentryfoldername` does NOT
return the failed outcome `False`: `renamesubentryfolder` converts the
`OSError` into a `ValueError` (satellite_location.py line 710) which the
`except OSError` handler at line 757 does not catch, so the exception
propagates to the caller — contradicting the docstring contract
"False if renaming failed" (lines 731-739). -/
theorem ensuresubentryfoldername_fs_failure_raises :
    ensuresubentryfoldername true demoCat "RS123" "a" ["RS123a New"] =
      (.raised (.valueError "Error while trying to rename"), demoCat) ∧
    (EnsureRes.raised (.valueError "Error while trying to rename")) ≠ EnsureRes.retFalse := by
  constructor
  · rfl
  · decide

/-- C2: every failing `renamesubentryfolder` call — parent-dirname
mismatch (`OSError` usage error), old path absent from the catalog
(`None` return), or underlying filesystem rename failure (re-raised as
`ValueError`) — leaves the forward index, the reverse index and the
subentry-folder set exactly as they were (no partial update). -/
theorem renamesubentryfolder_failure_leaves_catalog (rr : Bool) (cat : Catalog)
    (folderpath newbasename : FPath) :
    ((renamesubentryfolder rr cat folderpath newbasename).res =
        .raised (.osError "parent dirname does not match") →
      (renamesubentryfolder rr cat folderpath newbasename).cat = cat) ∧
    ((renamesubentryfolder rr cat folderpath newbasename).res = .retNone →
      (renamesubentryfolder rr cat folderpath newbasename).cat = cat) ∧
    ((renamesubentryfolder rr cat folderpath newbasename).res =
        .raised (.valueError "Error while trying to rename") →
      (renamesubentryfolder rr cat folderpath newbasename).cat = cat) := by
  unfold renamesubentryfolder
  refine ⟨fun h => ?_, fun h => ?_, fun h => ?_⟩ <;>
    (repeat' split at h) <;>
    first
      | rfl
      | (split <;> rfl)
      | simp_all

/-- Witness for C2: the catalog-absent failure case at a concrete input. -/
theorem renamesubentryfolder_failure_leaves_catalog_witness :
    (renamesubentryfolder false demoCat ["2014", "unknown"] ["newname"]).res = .retNone ∧
    (renamesubentryfolder false demoCat ["2014", "unknown"] ["newname"]).cat = demoCat :=
  ⟨by decide,
   (renamesubentryfolder_failure_leaves_catalog false demoCat ["2014", "unknown"]
     ["newname"]).2.1 (by decide)⟩

/-- C10: on the success path, `renamesubentryfolder` hands the filesystem
rename primitive the *bare* basename as destination (line 693 rebinds
`newbasename` before line 707 passes it to `self.rename`, which is plain
`os.rename`), while both catalog indices record
`join(dirname(folderpath), basename(newbasename))`; the path `os.rename`
actually targets (the relative name resolved against the process working
directory) coincides with the recorded path exactly when the working
directory is `folderpath`'s parent. -/
theorem renamesubentryfolder_rename_target_mismatch (cat : Catalog)
    (folderpath newbasename : FPath) (expid subidx : String)
    (inner : List (String × FPath))
    (hdir : pdirname newbasename = [] ∨ pdirname folderpath = pdirname newbasename)
    (hrev : alLookup cat.expidSubidxByFolder folderpath = some (expid, subidx))
    (hfwd : alLookup cat.subByExpidSubidx expid = some inner) :
    (renamesubentryfolder false cat folderpath newbasename).renameCallArgs =
      some (folderpath, [pbasename newbasename]) ∧
    (renamesubentryfolder false cat folderpath newbasename).res =
      .renamed (pjoin (pdirname folderpath) (pbasename newbasename)) ∧
    alLookup (renamesubentryfolder false cat folderpath newbasename).cat.expidSubidxByFolder
      (pjoin (pdirname folderpath) (pbasename newbasename)) = some (expid, subidx) ∧
    (∃ inner2,
      alLookup (renamesubentryfolder false cat folderpath newbasename).cat.subByExpidSubidx
        expid = some inner2 ∧
      alLookup inner2 subidx = some (pjoin (pdirname folderpath) (pbasename newbasename))) ∧
    (∀ cwd : FPath,
      resolveRel cwd [pbasename newbasename] =
        pjoin (pdirname folderpath) (pbasename newbasename) ↔ cwd = pdirname folderpath) := by
  have hcond : ¬ (pdirname newbasename ≠ [] ∧ pdirname folderpath ≠ pdirname newbasename) := by
    rcases hdir with h | h <;> simp [h]
  unfold renamesubentryfolder
  rw [if_neg hcond]
  simp only [hrev, hfwd]
  refine ⟨rfl, rfl, ?_, ?_, ?_⟩
  · exact alLookup_alInsert_self _ _ _
  · exact ⟨alInsert inner subidx (pjoin (pdirname folderpath) (pbasename newbasename)),
      alLookup_alInsert_self _ _ _, alLookup_alInsert_self _ _ _⟩
  · intro cwd
    unfold resolveRel pjoin
    constructor
    · intro h
      exact List.append_cancel_right h
    · intro h
      rw [h]

/-- Witness for C10: the mismatch at a concrete catalog -- the filesystem
rename is called with destination `[RS123a New]` (resolved against the
working directory) while the catalog records
`2014/RS123 Exp/RS123a New`. -/
theorem renamesubentryfolder_rename_target_mismatch_witness :
    (renamesubentryfolder false demoCat ["2014", "RS123 Exp", "RS123a Old"]
        ["RS123a New"]).renameCallArgs =
      some (["2014", "RS123 Exp", "RS123a Old"], ["RS123a New"]) ∧
    (renamesubentryfolder false demoCat ["2014", "RS123 Exp", "RS123a Old"]
        ["RS123a New"]).res = .renamed ["2014", "RS123 Exp", "RS123a New"] ∧
    (resolveRel ["2014", "RS123 Exp"] ["RS123a New"] = ["2014", "RS123 Exp", "RS123a New"] ↔
      (["2014", "RS123 Exp"] : FPath) = ["2014", "RS123 Exp"]) := by
  obtain ⟨h1, h2, _h3, _h4, h5⟩ :=
    renamesubentryfolder_rename_target_mismatch demoCat ["2014", "RS123 Exp", "RS123a Old"]
      ["RS123a New"] "RS123" "a" [("a", ["2014", "RS123 Exp", "RS123a Old"])]
      (Or.inl (by decide)) (by decide) (by decide)
  exact ⟨h1, h2, h5 ["2014", "RS123 Exp"]⟩

theorem alLookup_mem {κ ν : Type} [DecidableEq κ] {d : List (κ × ν)} {k : κ} {v : ν}
    (h : alLookup d k = some v) : (k, v) ∈ d := by
  induction d with
  | nil => simp [alLookup] at h
  | cons hd rest ih =>
    obtain ⟨a, b⟩ := hd
    by_cases hh : a = k
    · subst hh
      simp only [alLookup, if_pos rfl] at h
      injection h with h
      subst h
      exact List.mem_cons_self _ _
    · simp only [alLookup, if_neg hh] at h
      exact List.mem_cons_of_mem _ (ih h)

theorem pbasename_pjoin (d : FPath) (b : String) : pbasename (pjoin d b) = b := by
  unfold pbasename pjoin
  rw [List.getLast?_concat]
  rfl

theorem not_mem_sDiscard_self {α : Type} [DecidableEq α] (s : List α) (x : α) :
    x ∉ sDiscard s x := by
  simp [sDiscard]

theorem not_mem_sAdd {α : Type} [DecidableEq α] (s : List α) (x y : α)
    (hxy : x ≠ y) (hx : x ∉ s) : x ∉ sAdd s y := by
  unfold sAdd
  split
  · exact hx
  · intro h
    rcases List.mem_append.mp h with h2 | h2
    · exact hx h2
    · exact hxy (List.mem_singleton.mp h2)

/-- Counterexample for C3: a successful `renamesubentryfolder` whose new
basename equals the old one (the source only warns at line 695 and
proceeds) yields a new path identical to the old path, so the old path is
NOT absent from the indices afterwards. -/
theorem renamesubentryfolder_same_basename_keeps_oldpath :
    (renamesubentryfolder false demoCat ["2014", "RS123 Exp", "RS123a Old"]
        ["RS123a Old"]).res = .renamed ["2014", "RS123 Exp", "RS123a Old"] ∧
    alLookup (renamesubentryfolder false demoCat ["2014", "RS123 Exp", "RS123a Old"]
        ["RS123a Old"]).cat.expidSubidxByFolder ["2014", "RS123 Exp", "RS123a Old"] =
      some ("RS123", "a") := by
  decide

/-- C3 (amended): after a successful `renamesubentryfolder(oldPath,
newName)` whose new basename differs from the old one and whose new path
is not already catalogued, on a duplicate-free catalog in which oldPath
maps to `(expid, subidx)` consistently in both indices: oldPath is absent
from the reverse index and from every slot of the forward index, the new
path `dirname(oldPath) ++ basename(newName)` maps to `(expid, subidx)` in
the reverse index and is the value of the forward index at
`[expid][subidx]`, both index sizes are unchanged, and oldPath is absent
from the subentry-folder set. -/
theorem renamesubentryfolder_success_updates_catalog
    (cat : Catalog) (folderpath newbasename : FPath) (expid subidx : String)
    (inner : List (String × FPath))
    (hnodup : (cat.expidSubidxByFolder.map Prod.fst).Nodup)
    (hdir : pdirname newbasename = [] ∨ pdirname folderpath = pdirname newbasename)
    (hrev : alLookup cat.expidSubidxByFolder folderpath = some (expid, subidx))
    (hfwd : alLookup cat.subByExpidSubidx expid = some inner)
    (hfwdat : alLookup inner subidx = some folderpath)
    (hinj : ∀ kv ∈ cat.subByExpidSubidx, ∀ kv2 ∈ kv.2, kv2.2 = folderpath →
      kv.1 = expid ∧ kv2.1 = subidx)
    (hbase : pbasename newbasename ≠ pbasename folderpath)
    (hnocol : alLookup cat.expidSubidxByFolder
      (pjoin (pdirname folderpath) (pbasename newbasename)) = none) :
    (renamesubentryfolder false cat folderpath newbasename).res =
      .renamed (pjoin (pdirname folderpath) (pbasename newbasename)) ∧
    alLookup (renamesubentryfolder false cat folderpath newbasename).cat.expidSubidxByFolder
      folderpath = none ∧
    alLookup (renamesubentryfolder false cat folderpath newbasename).cat.expidSubidxByFolder
      (pjoin (pdirname folderpath) (pbasename newbasename)) = some (expid, subidx) ∧
    (∃ inner2,
      alLookup (renamesubentryfolder false cat folderpath newbasename).cat.subByExpidSubidx
        expid = some inner2 ∧
      alLookup inner2 subidx = some (pjoin (pdirname folderpath) (pbasename newbasename))) ∧
    (∀ e inner2,
      alLookup (renamesubentryfolder false cat folderpath newbasename).cat.subByExpidSubidx
        e = some inner2 → ∀ i, alLookup inner2 i ≠ some folderpath) ∧
    (renamesubentryfolder false cat folderpath newbasename).cat.expidSubidxByFolder.length =
      cat.expidSubidxByFolder.length ∧
    (renamesubentryfolder false cat folderpath newbasename).cat.subByExpidSubidx.length =
      cat.subByExpidSubidx.length ∧
    (∀ l2, (renamesubentryfolder false cat folderpath newbasename).cat.subentryfolderset =
      some l2 → folderpath ∉ l2) := by
  have hcond : ¬ (pdirname newbasename ≠ [] ∧ pdirname folderpath ≠ pdirname newbasename) := by
    rcases hdir with h | h <;> simp [h]
  have hnp : pjoin (pdirname folderpath) (pbasename newbasename) ≠ folderpath := by
    intro h
    apply hbase
    rw [← h, pbasename_pjoin]
  unfold renamesubentryfolder
  rw [if_neg hcond]
  simp only [hrev, hfwd]
  rw [if_neg (by decide : ¬ (false = true))]
  dsimp only
  refine ⟨rfl, ?_, ?_, ?_, ?_, ?_, ?_, ?_⟩
  · rw [alLookup_alInsert_ne _ _ _ _ (Ne.symm hnp)]
    exact alLookup_alErase_self _ _ hnodup
  · exact alLookup_alInsert_self _ _ _
  · exact ⟨alInsert inner subidx (pjoin (pdirname folderpath) (pbasename newbasename)),
      alLookup_alInsert_self _ _ _, alLookup_alInsert_self _ _ _⟩
  · intro e inner2 hin i hat
    by_cases he : e = expid
    · rw [he, alLookup_alInsert_self] at hin
      injection hin with hin
      subst hin
      by_cases hi : i = subidx
      · rw [hi, alLookup_alInsert_self] at hat
        exact hnp (by injection hat)
      · rw [alLookup_alInsert_ne _ _ _ _ hi] at hat
        exact hi (hinj (expid, inner) (alLookup_mem hfwd) (i, folderpath)
          (alLookup_mem hat) rfl).2
    · rw [alLookup_alInsert_ne _ _ _ _ he] at hin
      exact he (hinj (e, inner2) (alLookup_mem hin) (i, folderpath)
        (alLookup_mem hat) rfl).1
  · rw [alInsert_length_of_not_mem]
    · exact alErase_length_of_mem _ _ (by rw [hrev]; rfl)
    · rw [alLookup_alErase_ne _ _ _ hnp]
      exact hnocol
  · exact alInsert_length_of_mem _ _ _ (by rw [hfwd]; rfl)
  · intro l2 hl2
    cases hset : cat.subentryfolderset with
    | none =>
      rw [hset] at hl2
      exact absurd hl2 (by simp)
    | some l =>
      rw [hset] at hl2
      dsimp only at hl2
      by_cases hl : l ≠ []
      · rw [if_pos hl] at hl2
        injection hl2 with hl2
        subst hl2
        exact not_mem_sAdd _ _ _ (Ne.symm hnp) (not_mem_sDiscard_self l folderpath)
      · rw [if_neg hl] at hl2
        injection hl2 with hl2
        subst hl2
        simp only [ne_eq, not_not] at hl
        subst hl
        simp

/-- Witness for C3: the amended statement applied to the demonstration
catalog with a genuinely different new basename. -/
theorem renamesubentryfolder_success_updates_catalog_witness :
    (renamesubentryfolder false demoCat ["2014", "RS123 Exp", "RS123a Old"]
        ["RS123a New"]).res = .renamed ["2014", "RS123 Exp", "RS123a New"] ∧
    alLookup (renamesubentryfolder false demoCat ["2014", "RS123 Exp", "RS123a Old"]
        ["RS123a New"]).cat.expidSubidxByFolder ["2014", "RS123 Exp", "RS123a Old"] = none := by
  obtain ⟨h1, h2, _⟩ :=
    renamesubentryfolder_success_updates_catalog demoCat ["2014", "RS123 Exp", "RS123a Old"]
      ["RS123a New"] "RS123" "a" [("a", ["2014", "RS123 Exp", "RS123a Old"])]
      (by decide) (Or.inl (by decide)) (by decide) (by decide) (by decide)
      (by decide) (by decide) (by decide)
  exact ⟨h1, h2⟩

/-- The sync environment of the C1 scenario: local directory `/loc`
holding `file.txt` with mtime `10.0`, satellite file
`/sat/exp/file.txt` with mtime `20.25`, no exclude patterns. -/
def syncDemoEnv : SyncEnv :=
  { isdir := fun s => s == "/loc",
    isfile := fun s => s == "/sat/exp/file.txt" || s == "/loc/file.txt",
    pexists := fun s => s == "/sat/exp/file.txt" || s == "/loc/file.txt",
    getmtime := fun s => if s == "/sat/exp/file.txt" then (81 : ℚ) / 4 else 10,
    getRealPath := fun s => "/sat/" ++ s,
    excludePatterns := [] }

theorem pyround_81_div_4 : pyround ((81 : ℚ) / 4) = 20 := by
  have hf : (⌊(81 : ℚ) / 4⌋ : ℤ) = 20 := by
    rw [Int.floor_eq_iff]
    norm_num
  unfold pyround
  rw [hf]
  norm_num

theorem pyround_ten : pyround (10 : ℚ) = 10 := by
  have hf : (⌊(10 : ℚ)⌋ : ℤ) = 10 := by
    rw [Int.floor_eq_iff]
    norm_num
  unfold pyround
  rw [hf]
  norm_num

/-- Counterexample for C1: source mtime `20.25`, destination mtime
`10.0` — the destination is strictly older than the source minus the
10-second tolerance (`10 < 20.25 - 10`), yet line 957 compares *rounded*
mtimes (`round(20.25) = 20 > round(10) + 10 = 20` is false) and the file
is skipped, not overwritten. -/
theorem syncFileToLocalDir_rounding_skips_stale_dest :
    syncFileToLocalDir syncDemoEnv "exp/file.txt" "/loc" = .skipCurrent ∧
    syncDemoEnv.getmtime "/loc/file.txt" <
      syncDemoEnv.getmtime (syncDemoEnv.getRealPath "exp/file.txt") - 10 := by
  constructor
  · show (if pyround (syncDemoEnv.getmtime "/loc/file.txt") + 10 <
          pyround (syncDemoEnv.getmtime (syncDemoEnv.getRealPath "exp/file.txt"))
        then SyncFileAction.overwrite else SyncFileAction.skipCurrent) = SyncFileAction.skipCurrent
    have hdst : syncDemoEnv.getmtime "/loc/file.txt" = (10 : ℚ) := rfl
    have hsrc : syncDemoEnv.getmtime (syncDemoEnv.getRealPath "exp/file.txt") = (81 : ℚ) / 4 := rfl
    rw [hdst, hsrc, pyround_81_div_4, pyround_ten]
    decide
  · show (10 : ℚ) < (81 : ℚ) / 4 - 10
    norm_num

/-- C1 (amended): in the branch where the destination directory exists,
the source is a regular file not matching any exclude pattern, and the
destination path exists and is a regular file, `syncFileToLocalDir`
overwrites (copy2, symbol `O`) iff
`round(srcMtime) > round(destMtime) + 10` — Python's `round` of the two
float mtimes (line 957) — and skips (symbol `S`) otherwise.  For
integer-valued mtimes this coincides with
`srcMtime > destMtime + toleranceSeconds`, but fractional mtimes are
compared only after rounding. -/
theorem syncFileToLocalDir_overwrite_iff_rounded_mtimes (env : SyncEnv) (sp lp : String)
    (h1 : env.isdir lp = true)
    (h2 : env.isfile (env.getRealPath sp) = true)
    (h3 : env.excludePatterns.any (fun pat => pat (osBasename (env.getRealPath sp))) = false)
    (h4 : env.pexists (ospJoin lp (osBasename (env.getRealPath sp))) = true)
    (h5 : env.isdir (ospJoin lp (osBasename (env.getRealPath sp))) = false)
    (h6 : env.isfile (ospJoin lp (osBasename (env.getRealPath sp))) = true) :
    (syncFileToLocalDir env sp lp = .overwrite ↔
      pyround (env.getmtime (ospJoin lp (osBasename (env.getRealPath sp)))) + 10 <
        pyround (env.getmtime (env.getRealPath sp))) ∧
    (syncFileToLocalDir env sp lp = .skipCurrent ↔
      ¬ (pyround (env.getmtime (ospJoin lp (osBasename (env.getRealPath sp)))) + 10 <
        pyround (env.getmtime (env.getRealPath sp)))) := by
  unfold syncFileToLocalDir
  simp only [h1, h2, h3, h4, h5, h6]
  by_cases hc : pyround (env.getmtime (ospJoin lp (osBasename (env.getRealPath sp)))) + 10 <
    pyround (env.getmtime (env.getRealPath sp))
  · simp [hc]
  · simp [hc]

/-- Witness for C1: the amended statement applied to the concrete
environment. -/
theorem syncFileToLocalDir_overwrite_iff_rounded_mtimes_witness :
    syncFileToLocalDir syncDemoEnv "exp/file.txt" "/loc" = .overwrite ↔
      pyround (syncDemoEnv.getmtime
        (ospJoin "/loc" (osBasename (syncDemoEnv.getRealPath "exp/file.txt")))) + 10 <
      pyround (syncDemoEnv.getmtime (syncDemoEnv.getRealPath "exp/file.txt")) :=
  (syncFileToLocalDir_overwrite_iff_rounded_mtimes syncDemoEnv "exp/file.txt" "/loc"
    (by decide) (by decide) rfl (by decide) (by decide) (by decide)).1

/-- Compiled pattern for the `year` level of the demonstration scenarios
(matching the basename `2014` with capture group `year`). -/
def yearPat : PyRegex := fun s => if s == "2014" then some [("year", "2014")] else none

/-- Compiled pattern for the `experiment` level of the demonstration
scenarios (matching `RS123 Exp` with groups `expid`, `exp_titledesc`). -/
def expPat : PyRegex :=
  fun s => if s == "RS123 Exp" then some [("expid", "RS123"), ("exp_titledesc", "Exp")] else none

/-- Pattern table holding only the `year` level. -/
def demoRegexsYear : List (String × PyRegex) := [("year", yearPat)]

/-- A small healthy tree: `base/2014/RS123 Exp`. -/
def demoFS : TreeFS :=
  { listdir := fun p =>
      if p == ["base"] then .ok ["2014"]
      else if p == ["base", "2014"] then .ok ["RS123 Exp"]
      else .ok [],
    isdir := fun _ => true }

/-- Counterexample for C4: constructing the matcher sequence (without
iterating it) already issues a filesystem call — the `listdir` of the base
path, the eagerly evaluated outermost iterable of the `foldernames`
generator expression (PEP 289; dirtreeparsing.py line 164) — so the
number of construction-time filesystem calls is not zero. -/
theorem genPathmatch_construction_issues_listdir :
    (genPathmatchTupsByPathscheme demoFS demoRegexsYear (fun _ => true) ([] : GroupDict)
      ["base"] "./year" none).ops = [FSOp.listdirOp ["base"]] ∧
    [FSOp.listdirOp ["base"]] ≠ ([] : List FSOp) := by
  exact ⟨rfl, by decide⟩

/-- C4 (amended): constructing the matcher performs exactly one
filesystem call — the `listdir` of the base path — whenever the first
scheme level has a pattern; all remaining I/O (the per-entry `isdir`
tests and every deeper `listdir`) happens only when the returned sequence
is consumed. -/
theorem genPathmatch_construction_single_listdir {α : Type} (fs : TreeFS)
    (regexs : List (String × PyRegex)) (ff : FPath → Bool) (mi : α) (bp : FPath)
    (folderscheme : String) (k : String) (rest : List String)
    (hkeys : schemeKeys folderscheme = k :: rest)
    (hpat : (alLookup regexs k).isSome) :
    (genPathmatchTupsByPathscheme fs regexs ff mi bp folderscheme none).ops =
      [FSOp.listdirOp bp] := by
  unfold genPathmatchTupsByPathscheme genitemsConstruct
  dsimp only
  rw [hkeys]
  dsimp only
  cases hp : alLookup regexs k with
  | none => rw [hp] at hpat; simp at hpat
  | some pat =>
    dsimp only
    cases fs.listdir bp <;> rfl

/-- Witness for C4: one listdir of the base path at construction, at the
concrete tree. -/
theorem genPathmatch_construction_single_listdir_witness :
    (genPathmatchTupsByPathscheme demoFS demoRegexsYear (fun _ => true) ([] : GroupDict)
      ["base"] "./year" none).ops = [FSOp.listdirOp ["base"]] :=
  genPathmatch_construction_single_listdir demoFS demoRegexsYear (fun _ => true) []
    ["base"] "./year" "year" [] (by decide) (by decide)

/-- Counterexample for C5: with a pattern set lacking the *deeper*
scheme level `experiment`, `genPathmatchTupsByPathscheme` does NOT raise
at call time — construction succeeds (after the base listdir) and the
`KeyError` only surfaces while the returned sequence is being consumed,
when the first matching `year` entry is expanded. -/
theorem genPathmatch_missing_deep_pattern_is_lazy :
    ("experiment" ∈ schemeKeys "./year/experiment") ∧
    alLookup demoRegexsYear "experiment" = none ∧
    (genPathmatchTupsByPathscheme demoFS demoRegexsYear (fun _ => true) ([] : GroupDict)
      ["base"] "./year/experiment" none).result.isOk = true ∧
    runPathmatch demoFS demoRegexsYear (fun _ => true) groupdictCombiner ([] : GroupDict)
      ["base"] "./year/experiment" none =
      .ok ⟨[], some (.keyError "experiment")⟩ := by
  refine ⟨by decide, rfl, rfl, ?_⟩
  rfl

/-- C5 (amended): only a pattern missing for the *first* scheme level
raises the configuration `KeyError` at call time, before any filesystem
operation (`regexs[schemekey]` at line 160 runs before the `listdir` at
line 164); a missing deeper-level pattern surfaces lazily during
iteration. -/
theorem genPathmatch_missing_first_pattern_raises_eagerly {α : Type} (fs : TreeFS)
    (regexs : List (String × PyRegex)) (ff : FPath → Bool) (mi : α) (bp : FPath)
    (folderscheme : String) (k : String) (rest : List String)
    (hkeys : schemeKeys folderscheme = k :: rest)
    (hpat : alLookup regexs k = none) :
    genPathmatchTupsByPathscheme fs regexs ff mi bp folderscheme none =
      ⟨[], .error (.keyError k)⟩ := by
  unfold genPathmatchTupsByPathscheme genitemsConstruct
  dsimp only
  rw [hkeys]
  dsimp only
  rw [hpat]

/-- Witness for C5: an empty pattern table makes the call raise the
`KeyError` for the first level with no filesystem operation issued. -/
theorem genPathmatch_missing_first_pattern_raises_eagerly_witness :
    genPathmatchTupsByPathscheme demoFS ([] : List (String × PyRegex)) (fun _ => true)
      ([] : GroupDict) ["base"] "./year" none = ⟨[], .error (.keyError "year")⟩ :=
  genPathmatch_missing_first_pattern_raises_eagerly demoFS [] (fun _ => true) []
    ["base"] "./year" "year" [] (by decide) rfl

theorem walkTerminal_err_none {α : Type} (fs : TreeFS) (ff : FPath → Bool)
    (comb : α → String → GroupDict → α) (sk : String) (pat : PyRegex) (bf : FPath) :
    ∀ (names : List String) (bm : α),
      (walkTerminal fs ff comb sk pat bf names bm).err = none := by
  intro names
  induction names with
  | nil => intro bm; rfl
  | cons name more ih =>
    intro bm
    unfold walkTerminal
    split
    · cases pat name with
      | none => exact ih bm
      | some m => exact ih bm
    · exact ih bm

theorem walkRecurse_err_none {α : Type} (fs : TreeFS) (ff : FPath → Bool)
    (comb : α → String → GroupDict → α) (deeper : FPath → α → IterOut α)
    (sk : String) (pat : PyRegex) (bf : FPath)
    (hd : ∀ (child : FPath) (acc : α), (deeper child acc).err = none) :
    ∀ (names : List String) (bm : α),
      (walkRecurse fs ff comb deeper sk pat bf names bm).err = none := by
  intro names
  induction names with
  | nil => intro bm; rfl
  | cons name more ih =>
    intro bm
    unfold walkRecurse
    split
    · cases pat name with
      | none => exact ih bm
      | some m =>
        dsimp only
        rw [hd (bf ++ [name]) (comb bm sk m)]
        exact ih bm
    · exact ih bm

theorem walkLevel_err_none {α : Type} (fs : TreeFS) (regexs : List (String × PyRegex))
    (ff : FPath → Bool) (comb : α → String → GroupDict → α)
    (hl : ∀ p : FPath, (fs.listdir p).isOk = true) :
    ∀ (remaining : List String),
      (∀ k2 ∈ remaining, (alLookup regexs k2).isSome = true) →
      ∀ (sk : String) (pat : PyRegex) (bf : FPath) (names : List String) (bm : α),
        (walkLevel fs regexs ff comb remaining sk pat bf names bm).err = none := by
  intro remaining
  induction remaining with
  | nil =>
    intro _ sk pat bf names bm
    exact walkTerminal_err_none fs ff comb sk pat bf names bm
  | cons k2 rest2 ih =>
    intro hr sk pat bf names bm
    unfold walkLevel
    apply walkRecurse_err_none
    intro child acc
    dsimp only
    cases hk : alLookup regexs k2 with
    | none =>
      have := hr k2 (List.mem_cons_self _ _)
      rw [hk] at this
      simp at this
    | some pat2 =>
      cases hld : fs.listdir child with
      | error msg =>
        have := hl child
        rw [hld] at this
        simp [Except.isOk, Except.toBool] at this
      | ok subnames =>
        exact ih (fun k hk2 => hr k (List.mem_cons_of_mem _ hk2)) k2 pat2 child subnames acc

/-- C8 (amended): an entry failing the eligibility test or the level
pattern is merely excluded and can never abort the walk — when every
`listdir` the walk issues succeeds and every remaining scheme level has a
pattern, consuming the generator finishes without an exception; a broken
symlink makes `os.path.isdir` return `False` (it does not raise), so such
entries fall under the eligibility test.  An `OSError` raised by
`listdir` while expanding a matched subdirectory, however, is NOT caught
anywhere in `genitems` and aborts the remainder of the traversal. -/
theorem iterateGen_err_none_of_listdir_ok {α : Type} (fs : TreeFS)
    (regexs : List (String × PyRegex)) (ff : FPath → Bool)
    (comb : α → String → GroupDict → α) (g : GenItems α)
    (hl : ∀ p : FPath, (fs.listdir p).isOk = true)
    (hr : ∀ k2 ∈ g.remaining, (alLookup regexs k2).isSome = true) :
    (iterateGen fs regexs ff comb g).err = none :=
  walkLevel_err_none fs regexs ff comb hl g.remaining hr g.schemekey g.regexpat
    g.basefolder g.listing g.basematch

/-- Witness for C8's amended statement: the healthy demonstration tree
iterates to completion without an abort. -/
theorem iterateGen_err_none_of_listdir_ok_witness :
    (iterateGen demoFS [("year", yearPat), ("experiment", expPat)] (fun _ => true)
      groupdictCombiner
      ⟨"year", ["experiment"], yearPat, ["base"], ["2014"], ([] : GroupDict)⟩).err = none :=
  iterateGen_err_none_of_listdir_ok demoFS [("year", yearPat), ("experiment", expPat)]
    (fun _ => true) groupdictCombiner _
    (by
      intro p
      unfold demoFS
      dsimp only
      split
      · rfl
      · split <;> rfl)
    (by decide)

/-- The C8 failure tree: `base` lists `bad` then `good`; listing `bad`
raises `OSError`, while `good` holds a matching experiment folder. -/
def brokenFS : TreeFS :=
  { listdir := fun p =>
      if p == ["base"] then .ok ["bad", "good"]
      else if p == ["base", "bad"] then .error "Permission denied"
      else if p == ["base", "good"] then .ok ["RS123 Exp"]
      else .ok [],
    isdir := fun _ => true }

/-- The same tree with the unreadable entry absent. -/
def goodOnlyFS : TreeFS :=
  { listdir := fun p =>
      if p == ["base"] then .ok ["good"]
      else if p == ["base", "good"] then .ok ["RS123 Exp"]
      else .ok [],
    isdir := fun _ => true }

/-- Year-level pattern of the C8 scenario, matching both `bad` and
`good`. -/
def siblingPat : PyRegex :=
  fun s => if s == "bad" || s == "good" then some [("year", s)] else none

/-- Pattern table for the C8 scenario. -/
def demoRegexsSibling : List (String × PyRegex) := [("year", siblingPat), ("experiment", expPat)]

/-- Counterexample for C8: the `OSError` raised by `listdir` while
examining the single entry `base/bad` aborts the whole traversal — the
walk yields nothing at all, although the sibling subtree `base/good`
contains a matching path (as the same walk without the broken entry
shows).  Per-entry errors from `listdir` are NOT caught at the entry. -/
theorem walk_aborts_on_entry_listdir_error :
    runPathmatch brokenFS demoRegexsSibling (fun _ => true) groupdictCombiner ([] : GroupDict)
      ["base"] "./year/experiment" none =
      .ok ⟨[], some (.osError "Permission denied")⟩ ∧
    runPathmatch goodOnlyFS demoRegexsSibling (fun _ => true) groupdictCombiner ([] : GroupDict)
      ["base"] "./year/experiment" none =
      .ok ⟨[(["base", "good", "RS123 Exp"],
            [("year", "good"), ("expid", "RS123"), ("exp_titledesc", "Exp")])], none⟩ := by
  exact ⟨rfl, rfl⟩

/-- Experiment-level pattern of the Scenario C duplicates: both
`RS100 A` and `RS100 Adup` capture `expid=RS100`. -/
def dupPat : PyRegex := fun s =>
  if s == "RS100 A" then some [("expid", "RS100"), ("exp_titledesc", "A")]
  else if s == "RS100 Adup" then some [("expid", "RS100"), ("exp_titledesc", "Adup")]
  else none

/-- The Scenario C tree: two sibling experiment folders under `base`. -/
def dupFS : TreeFS :=
  { listdir := fun p =>
      if p == ["base"] then .ok ["RS100 A", "RS100 Adup"] else .ok [],
    isdir := fun _ => true }

/-- Pattern table for the Scenario C duplicates. -/
def demoRegexsDup : List (String × PyRegex) := [("experiment", dupPat)]

/-- Counterexample for C6: `getDuplicateExps` with the scalar group
`'expid'` keys its result by the bare string `RS100` — there is no entry
under the 1-tuple key `('RS100',)` that the claim requires (line 266-268
of dirtreeparsing.py returns `match[group]` unwrapped for a scalar
group; tuple keys arise only for tuple/list groups). -/
theorem getDuplicateExps_key_is_bare_string :
    getDuplicateExps dupFS demoRegexsDup (fun _ => true) ["base"] "./experiment" =
      .ok [(.str "RS100", [["base", "RS100 A"], ["base", "RS100 Adup"]])] ∧
    alLookup [(PyKey.str "RS100", [["base", "RS100 A"], ["base", "RS100 Adup"]])]
      (PyKey.tup ["RS100"]) = none := by
  exact ⟨rfl, rfl⟩

theorem alAppendAt_nonempty {κ : Type} [DecidableEq κ] {ν : Type}
    (d : List (κ × List ν)) (k : κ) (v : ν)
    (hacc : ∀ kv ∈ d, kv.2 ≠ []) :
    ∀ kv ∈ alAppendAt d k v, kv.2 ≠ [] := by
  induction d with
  | nil =>
    intro kv hkv
    simp only [alAppendAt, List.mem_singleton] at hkv
    subst hkv
    simp
  | cons hd rest ih =>
    obtain ⟨k2, l⟩ := hd
    intro kv hkv
    by_cases hh : k2 = k
    · simp only [alAppendAt, if_pos hh] at hkv
      rcases List.mem_cons.mp hkv with h | h
      · subst h
        simp
      · exact hacc kv (List.mem_cons_of_mem _ h)
    · simp only [alAppendAt, if_neg hh] at hkv
      rcases List.mem_cons.mp hkv with h | h
      · subst h
        exact hacc (k2, l) (List.mem_cons_self _ _)
      · exact ih (fun kv2 hkv2 => hacc kv2 (List.mem_cons_of_mem _ hkv2)) kv h

theorem groupFold_ok_nonempty (group : PyGroup) :
    ∀ (items : List (FPath × GroupDict)) (acc g : List (PyKey × List FPath)),
      (∀ kv ∈ acc, kv.2 ≠ []) → groupFold group acc items = .ok g →
      ∀ kv ∈ g, kv.2 ≠ [] := by
  intro items
  induction items with
  | nil =>
    intro acc g hacc hg
    unfold groupFold at hg
    injection hg with hg
    subst hg
    exact hacc
  | cons item rest ih =>
    obtain ⟨p, md⟩ := item
    intro acc g hacc hg
    unfold groupFold at hg
    cases hpg : pyGroupGetter group md with
    | error e => rw [hpg] at hg; cases hg
    | ok k =>
      rw [hpg] at hg
      exact ih (alAppendAt acc k p) g (alAppendAt_nonempty acc k p hacc) hg

theorem getFoldersWithSameProperty_countlim_one_keeps_all (fs : TreeFS)
    (regexs : List (String × PyRegex)) (ff : FPath → Bool) (group : PyGroup)
    (bp : FPath) (scheme : String) (rm : Option String) :
    getFoldersWithSameProperty fs regexs ff group bp scheme rm 1 =
      getFoldersWithSameProperty fs regexs ff group bp scheme rm 0 := by
  unfold getFoldersWithSameProperty
  cases hcon : genPathGroupdictTupByPathscheme fs regexs ff bp scheme rm with
  | mk ops result =>
    cases result with
    | error e => rfl
    | ok g =>
      dsimp only
      cases hgf : groupFold group [] (iterateGen fs regexs ff groupdictCombiner g).results with
      | error e => rfl
      | ok grouped =>
        dsimp only
        cases (iterateGen fs regexs ff groupdictCombiner g).err with
        | some e => rfl
        | none =>
          dsimp only
          rw [if_pos (by decide), if_neg (by decide)]
          congr 1
          apply List.filter_eq_self.mpr
          intro kv hkv
          have hne := groupFold_ok_nonempty group _ [] grouped
            (by intro kv2 hkv2; cases hkv2) hgf kv hkv
          cases hl : kv.2 with
          | nil => exact absurd hl hne
          | cons a l => simp [hl]

/-- C6 (amended): for the Scenario C tree the duplicate query
`getDuplicateExps` (`getFoldersWithSameProperty` with scalar group
`'expid'`, `rightmost='experiment'`, `countlim=2`) returns the mapping
whose key for the duplicated identity is the bare string `RS100` (not a
1-tuple — tuple keys arise only from tuple/list group specs) and whose
value lists both folder paths; and for every input, `countlim=1` keeps
every identity encountered — the result is the full grouping, singletons
included. -/
theorem getDuplicateExps_scalar_key_and_countlim_one :
    (getDuplicateExps dupFS demoRegexsDup (fun _ => true) ["base"] "./experiment" =
      .ok [(.str "RS100", [["base", "RS100 A"], ["base", "RS100 Adup"]])] ∧
     alLookup [(PyKey.str "RS100", [["base", "RS100 A"], ["base", "RS100 Adup"]])]
       (PyKey.str "RS100") = some [["base", "RS100 A"], ["base", "RS100 Adup"]]) ∧
    (∀ (fs : TreeFS) (regexs : List (String × PyRegex)) (ff : FPath → Bool)
       (group : PyGroup) (bp : FPath) (scheme : String) (rm : Option String),
      getFoldersWithSameProperty fs regexs ff group bp scheme rm 1 =
        getFoldersWithSameProperty fs regexs ff group bp scheme rm 0) :=
  ⟨⟨rfl, rfl⟩, getFoldersWithSameProperty_countlim_one_keeps_all⟩
